import Mathlib

/-!
Verification development for the visual-assistant-ui repository.

The repository is a React/TypeScript front end.  The pure data-shaping
functions and the event-handler control flow that the specification talks
about are shallowly embedded below:

* JavaScript string primitives used by the code (`trim`, `toLowerCase`,
  `parseFloat`, global single-character `replace`, whitespace collapse)
  are modelled over `List Char` so that all definitions compute inside
  the kernel.  Case mapping is modelled on ASCII letters, which covers
  every string the embedded code compares.
* JavaScript numbers produced by `parseFloat` are modelled exactly as
  scaled decimals `m / 10^e` together with the two infinities (a float
  produced from a decimal literal is such a number); `NaN` is `none`.
* Stateful React callbacks become pure state-transition functions; each
  `fetch` outcome is passed in as an `Except`/`Bool` parameter, and the
  requests a handler issues are returned explicitly.
-/

namespace Js

/-- Whitespace class used by JavaScript `trim` / `\s` (ASCII part). -/
def jsIsWs (c : Char) : Bool :=
  c = ' ' ∨ c = '\t' ∨ c = '\n' ∨ c = '\r' ∨ c = '\x0b' ∨ c = '\x0c'

/-- Model of JavaScript `String.prototype.trim`. -/
def jsTrim (s : String) : String :=
  ⟨((s.data.dropWhile jsIsWs).reverse.dropWhile jsIsWs).reverse⟩

/-- ASCII lower-casing of one character. -/
def jsLowerChar (c : Char) : Char :=
  if 'A' ≤ c ∧ c ≤ 'Z' then Char.ofNat (c.toNat + 32) else c

/-- Model of JavaScript `String.prototype.toLowerCase` (ASCII). -/
def jsToLower (s : String) : String :=
  ⟨s.data.map jsLowerChar⟩

/-- Model of `str.replace(/c/g, d)` for single characters `c`, `d`. -/
def jsReplaceChar (c d : Char) (s : String) : String :=
  ⟨s.data.map (fun x => if x = c then d else x)⟩

/-- Model of `str.replace(/\s+/g, " ")`: every maximal whitespace run
becomes a single space. -/
def collapseWsAux : List Char → Bool → List Char
  | [], _ => []
  | c :: cs, prevWs =>
    if jsIsWs c then
      if prevWs then collapseWsAux cs true else ' ' :: collapseWsAux cs true
    else c :: collapseWsAux cs false

def collapseWs (s : String) : String :=
  ⟨collapseWsAux s.data false⟩

/-- Numeric value of a digit string. -/
def digitsVal (ds : List Char) : Nat :=
  ds.foldl (fun a c => a * 10 + (c.toNat - 48)) 0

/-- A JavaScript number as produced by `parseFloat` on a decimal
literal: a scaled decimal `m / 10^e`, or one of the infinities. -/
inductive JNum where
  | fin (m : Int) (e : Nat)
  | posInf
  | negInf
deriving DecidableEq, Repr

/-- Comparison `x >= n` of a JavaScript number with a natural number. -/
def JNum.geNat : JNum → Nat → Bool
  | .fin m e, n => (n : Int) * (10 : Int)^e ≤ m
  | .posInf, _ => true
  | .negInf, _ => false

/-- Exponent suffix of a decimal literal: `(e|E)(+|-)?digits`, taken as
0 when absent or when no digit follows the marker (as `parseFloat`
stops before an incomplete exponent). -/
def parseExpOpt (cs : List Char) : Int :=
  match cs with
  | [] => 0
  | c :: rest =>
    if c = 'e' ∨ c = 'E' then
      let signed : Bool × List Char :=
        match rest with
        | '-' :: rr => (true, rr)
        | '+' :: rr => (false, rr)
        | rr => (false, rr)
      let ds := signed.2.takeWhile Char.isDigit
      if ds.isEmpty then 0
      else if signed.1 then -(Int.ofNat (digitsVal ds)) else Int.ofNat (digitsVal ds)
    else 0

/-- Apply a decimal exponent to a scaled decimal. -/
def applyExp (m : Int) (e : Nat) (exp : Int) : JNum :=
  match exp with
  | .ofNat k => .fin (m * (10 : Int)^k) e
  | .negSucc k => .fin m (e + (k + 1))

/-- Model of JavaScript `parseFloat`: leading whitespace, optional sign,
then either an `Infinity` prefix or the longest decimal-literal prefix;
`none` models `NaN` (no parsable prefix). -/
def jsParseFloat (s : String) : Option JNum :=
  let cs0 := s.data.dropWhile jsIsWs
  let signed : Bool × List Char :=
    match cs0 with
    | '-' :: r => (true, r)
    | '+' :: r => (false, r)
    | r => (false, r)
  let neg := signed.1
  let cs := signed.2
  if cs.take 8 = ['I', 'n', 'f', 'i', 'n', 'i', 't', 'y'] then
    some (if neg then .negInf else .posInf)
  else
    let ip := cs.takeWhile Char.isDigit
    let r1 := cs.dropWhile Char.isDigit
    let fr : List Char × List Char :=
      match r1 with
      | '.' :: r => (r.takeWhile Char.isDigit, r.dropWhile Char.isDigit)
      | _ => ([], r1)
    let fp := fr.1
    if ip.isEmpty ∧ fp.isEmpty then none
    else
      let mAbs : Int := Int.ofNat (digitsVal (ip ++ fp))
      let m : Int := if neg then -mAbs else mAbs
      some (applyExp m fp.length (parseExpOpt fr.2))

end Js

namespace Generateur

/-! Embedding of `src/src/app/generateur/page.tsx`. -/

open Js

/-- `showIf` of an intro field (`{ sourceField, rule }`). -/
structure IntroShowIf where
  sourceField : String
  rule : String
deriving DecidableEq, Repr

/-- `IntroField` (presentation-only members `label`, `type`, `options`
are irrelevant to the embedded functions and omitted). -/
structure IntroField where
  key : String
  mapTo : Option (List (String × JNum)) := none
  showIf : Option IntroShowIf := none
deriving DecidableEq, Repr

/-- `showIf` of a step group (`{ sourceField, allowedValues }`). -/
structure GroupShowIf where
  sourceField : String
  allowedValues : List String
deriving DecidableEq, Repr

/-- `StepGroup` (its `label`, `category` and `keys` members do not
influence visibility and are omitted). -/
structure StepGroup where
  showIf : Option GroupShowIf := none
deriving DecidableEq, Repr

/-- The `ivData` record of currently entered intro-field values. -/
def IvData := List (String × String)

/-- Record access `ivData[k]` (record keys are unique in JS). -/
def ivGet (iv : IvData) (k : String) : Option String :=
  List.lookup k iv

/-- Model of the `rule.match(/^>=\s*([0-9]+)$/)` test: returns the
parsed bound when the rule has exactly the form `>=  N`. -/
def parseGeRule (rule : String) : Option Nat :=
  match rule.data with
  | '>' :: '=' :: rest =>
    let ds := rest.dropWhile jsIsWs
    if ds ≠ [] ∧ ds.all Char.isDigit then some (digitsVal ds) else none
  | _ => none

/-- The numeric interpretation of a source value: `mapTo` table of the
source field first, `parseFloat` otherwise (mirrors lines 135-142 of
the page). -/
def numericOfValue (allIntro : List IntroField) (sourceField valRaw : String) : Option JNum :=
  let src := allIntro.find? (fun f => f.key == sourceField)
  match src with
  | some f =>
    match f.mapTo with
    | some table =>
      match List.lookup valRaw table with
      | some v => some v
      | none => jsParseFloat valRaw
    | none => jsParseFloat valRaw
  | none => jsParseFloat valRaw

/-- Embedding of `shouldShowField` (generateur page, lines 125-149). -/
def shouldShowField (field : IntroField) (ivData : IvData) (allIntro : List IntroField) : Bool :=
  match field.showIf with
  | none => true
  | some si =>
    let valRaw := (ivGet ivData si.sourceField).getD ""
    if valRaw = "" ∨ jsTrim valRaw = "" then false
    else
      match numericOfValue allIntro si.sourceField valRaw with
      | none => false
      | some q =>
        match parseGeRule si.rule with
        | some n => q.geNat n
        | none => true

/-- Embedding of `shouldShowGroup` (generateur page, lines 151-157). -/
def shouldShowGroup (group : StepGroup) (ivData : IvData) : Bool :=
  match group.showIf with
  | none => true
  | some si =>
    if si.sourceField = "" then true
    else
      let current := jsTrim (jsToLower ((ivGet ivData si.sourceField).getD ""))
      if current = "" then false
      else si.allowedValues.any (fun v => jsTrim (jsToLower v) == current)

end Generateur

namespace Generateur

open Js

/-- C2: for a step group whose `showIf` has a non-empty `sourceField`
and a non-empty `allowedValues` list, `shouldShowGroup` returns true
iff the current value of the referenced field, lower-cased and trimmed,
exactly equals one allow-listed value lower-cased and trimmed; an empty
or missing source value makes it return false. -/
theorem shouldShowGroup_spec (group : StepGroup) (iv : IvData) (si : GroupShowIf)
    (hsi : group.showIf = some si) (hsf : si.sourceField ≠ "")
    (_hav : si.allowedValues ≠ []) :
    (jsTrim (jsToLower ((ivGet iv si.sourceField).getD "")) = "" →
      shouldShowGroup group iv = false) ∧
    (jsTrim (jsToLower ((ivGet iv si.sourceField).getD "")) ≠ "" →
      (shouldShowGroup group iv = true ↔
        ∃ v ∈ si.allowedValues,
          jsTrim (jsToLower v) = jsTrim (jsToLower ((ivGet iv si.sourceField).getD "")))) := by
  constructor
  · intro hcur
    simp [shouldShowGroup, hsi, hcur, hsf]
  · intro hcur
    simp only [shouldShowGroup, hsi, if_neg hsf, if_neg hcur, List.any_eq_true, beq_iff_eq]

/-- Witness for `shouldShowGroup_spec` at a concrete group and value. -/
theorem shouldShowGroup_spec_witness :
    shouldShowGroup { showIf := some ⟨"typ", ["pac", "po\x65le"]⟩ } [("typ", " PAC ")] = true ↔
      ∃ v ∈ ["pac", "po\x65le"],
        jsTrim (jsToLower v) = jsTrim (jsToLower ((ivGet [("typ", " PAC ")] "typ").getD "")) := by
  exact (shouldShowGroup_spec { showIf := some ⟨"typ", ["pac", "po\x65le"]⟩ }
    [("typ", " PAC ")] ⟨"typ", ["pac", "po\x65le"]⟩ rfl (by decide) (by decide)).2 (by decide)

/-- C3: for an intro field whose `showIf.rule` parses as `>=N`, the
field is shown iff the referenced source value is non-empty (after
trimming) and its numeric interpretation (the source field's `mapTo`
table first, `parseFloat` otherwise) is a number `>= N`; a non-numeric,
unmapped, empty or missing source value hides the field. -/
theorem shouldShowField_ge_rule_spec (field : IntroField) (iv : IvData)
    (allIntro : List IntroField) (si : IntroShowIf) (n : Nat)
    (hsi : field.showIf = some si) (hrule : parseGeRule si.rule = some n) :
    shouldShowField field iv allIntro = true ↔
      (jsTrim ((ivGet iv si.sourceField).getD "") ≠ "" ∧
        ∃ q, numericOfValue allIntro si.sourceField ((ivGet iv si.sourceField).getD "") = some q ∧
          q.geNat n = true) := by
  have hempty : ((ivGet iv si.sourceField).getD "" = "" ∨
      jsTrim ((ivGet iv si.sourceField).getD "") = "") ↔
      jsTrim ((ivGet iv si.sourceField).getD "") = "" := by
    constructor
    · rintro (h | h)
      · rw [h]; rfl
      · exact h
    · exact Or.inr
  simp only [shouldShowField, hsi, hrule]
  by_cases hcur : jsTrim ((ivGet iv si.sourceField).getD "") = ""
  · rw [if_pos (hempty.mpr hcur)]
    simp [hcur]
  · rw [if_neg (fun h => hcur (hempty.mp h))]
    cases hnum : numericOfValue allIntro si.sourceField ((ivGet iv si.sourceField).getD "") with
    | none => simp [hcur]
    | some q => simp [hcur]

/-- Witness for `shouldShowField_ge_rule_spec`: a mapped categorical
value crossing the threshold. -/
theorem shouldShowField_ge_rule_spec_witness :
    shouldShowField { key := "f", showIf := some ⟨"src", ">=2"⟩ }
        [("src", "tri")] [{ key := "src", mapTo := some [("tri", .fin 3 0)] }] = true ↔
      (jsTrim ((ivGet [("src", "tri")] "src").getD "") ≠ "" ∧
        ∃ q, numericOfValue [{ key := "src", mapTo := some [("tri", .fin 3 0)] }] "src"
            ((ivGet [("src", "tri")] "src").getD "") = some q ∧
          q.geNat 2 = true) := by
  exact shouldShowField_ge_rule_spec { key := "f", showIf := some ⟨"src", ">=2"⟩ }
    [("src", "tri")] [{ key := "src", mapTo := some [("tri", .fin 3 0)] }]
    ⟨"src", ">=2"⟩ 2 rfl (by decide)

/-- C10: an intro field whose `showIf.rule` is present but does not
match the `>=N` pattern is shown whenever the referenced source value
is non-empty and has a numeric interpretation: an unrecognized rule
string shows the field rather than hiding it. -/
theorem shouldShowField_unknown_rule_spec (field : IntroField) (iv : IvData)
    (allIntro : List IntroField) (si : IntroShowIf)
    (hsi : field.showIf = some si) (hrule : parseGeRule si.rule = none)
    (v : String) (hv : ivGet iv si.sourceField = some v) (hne : jsTrim v ≠ "")
    (q : JNum) (hq : numericOfValue allIntro si.sourceField v = some q) :
    shouldShowField field iv allIntro = true := by
  have hvne : v ≠ "" := by
    intro h
    exact hne (by rw [h]; rfl)
  simp only [shouldShowField, hsi, hv, Option.getD_some, hq, hrule]
  rw [if_neg]
  rintro (h | h)
  · exact hvne h
  · exact hne h

/-- Witness for `shouldShowField_unknown_rule_spec`: rule `"<=2"` is
not of the `>=N` form, yet the numeric value `3` shows the field. -/
theorem shouldShowField_unknown_rule_spec_witness :
    shouldShowField { key := "g", showIf := some ⟨"src2", "<=2"⟩ } [("src2", "3")] [] = true := by
  exact shouldShowField_unknown_rule_spec { key := "g", showIf := some ⟨"src2", "<=2"⟩ }
    [("src2", "3")] [] ⟨"src2", "<=2"⟩ rfl (by decide) "3" (by decide) (by decide)
    (.fin 3 0) (by decide)

end Generateur

namespace Js

/-- Hexadecimal digit (uppercase, as produced by URL encoders). -/
def toHexDigit (n : Nat) : Char :=
  Char.ofNat (if n < 10 then 48 + n else 55 + n)

/-- UTF-8 bytes of one character. -/
def utf8Bytes (c : Char) : List Nat :=
  let n := c.toNat
  if n < 0x80 then [n]
  else if n < 0x800 then [0xC0 + n / 64, 0x80 + n % 64]
  else if n < 0x10000 then [0xE0 + n / 4096, 0x80 + (n / 64) % 64, 0x80 + n % 64]
  else [0xF0 + n / 262144, 0x80 + (n / 4096) % 64, 0x80 + (n / 64) % 64, 0x80 + n % 64]

/-- Percent-encoding of one byte. -/
def pctEncodeByte (b : Nat) : List Char :=
  ['%', toHexDigit (b / 16), toHexDigit (b % 16)]

/-- Characters `encodeURIComponent` leaves unescaped. -/
def isUriUnreserved (c : Char) : Bool :=
  c.isAlpha ∨ c.isDigit ∨ c ∈ ['-', '_', '.', '!', '~', '*', '(', ')'] ∨ c = Char.ofNat 39

/-- Model of JavaScript `encodeURIComponent`. -/
def encodeURIComponent (s : String) : String :=
  ⟨s.data.flatMap (fun c => if isUriUnreserved c then [c] else (utf8Bytes c).flatMap pctEncodeByte)⟩

/-- One character under `application/x-www-form-urlencoded` (the
serialization `URLSearchParams.toString` uses). -/
def formEncodeChar (c : Char) : List Char :=
  if c = ' ' then ['+']
  else if c.isAlpha ∨ c.isDigit ∨ c ∈ ['*', '-', '.', '_'] then [c]
  else (utf8Bytes c).flatMap pctEncodeByte

def formEncode (s : String) : String :=
  ⟨s.data.flatMap formEncodeChar⟩

end Js

namespace Generateur

open Js

/-! Embedding of the `generatedUrl` / `whatsappUrl` / `isReady` section
of `src/src/app/generateur/page.tsx` (lines 468-518) and the
copy / open controls (lines 1013-1037). -/

/-- The form state of `GenerateurPage` that feeds the link: contact
identity (`np`, `ns`, `em`), chantier reference `c`, product code `p`,
sheet `s`, selected steps, intro values, and the label of the currently
selected product (`currentProduct?.label`). -/
structure GenState where
  c : String
  p : String
  s : String
  np : String
  ns : String
  em : String
  selectedSteps : List String
  ivData : List (String × String)
  currentProductLabel : Option String := none
deriving Repr

/-- `URLSearchParams.set`: replace the value in place when the key
exists, append otherwise. -/
def setParam : List (String × String) → String → String → List (String × String)
  | [], k, v => [(k, v)]
  | (k', v') :: rest, k, v =>
    if k' = k then (k, v) :: rest else (k', v') :: setParam rest k v

/-- Legacy product value: `(currentProduct?.label ?? p).toLowerCase()
.replace(/_/g, " ").trim().replace(/\s+/g, " ")`. -/
def legacyP (st : GenState) : String :=
  collapseWs (jsTrim (jsReplaceChar '_' ' ' (jsToLower (st.currentProductLabel.getD st.p))))

/-- One `Object.entries(ivData)` iteration of `generatedUrl`:
`if (v && v.trim()) params.set(k, v.trim())`. -/
def ivStep (ps : List (String × String)) (kv : String × String) : List (String × String) :=
  if kv.2 ≠ "" ∧ jsTrim kv.2 ≠ "" then setParam ps kv.1 (jsTrim kv.2) else ps

/-- The query parameters assembled by `generatedUrl` (lines 468-492),
in insertion order. -/
def generatedParams (st : GenState) : List (String × String) :=
  let ps : List (String × String) := []
  let ps := if st.c ≠ "" then setParam ps "c" st.c else ps
  let ps := if st.p ≠ "" then setParam ps "p" (legacyP st) else ps
  let ps := if st.s ≠ "" then setParam ps "s" st.s else ps
  let ps := if st.selectedSteps.length > 0 then
    setParam ps "steps" (String.intercalate "," st.selectedSteps) else ps
  let ps := if st.np ≠ "" then setParam ps "np" st.np else ps
  let ps := if st.ns ≠ "" then setParam ps "ns" st.ns else ps
  let ps := if st.em ≠ "" then setParam ps "em" st.em else ps
  st.ivData.foldl ivStep ps

/-- `generatedUrl`: path plus form-urlencoded query string. -/
def generatedUrl (st : GenState) : String :=
  "/plan?" ++ String.intercalate "&"
    ((generatedParams st).map (fun kv => formEncode kv.1 ++ "=" ++ formEncode kv.2))

/-- `whatsappUrl` (lines 494-498). -/
def whatsappUrl (st : GenState) : String :=
  if generatedUrl st = "" then ""
  else "https://wa.me/33744866654?text=" ++ encodeURIComponent (generatedUrl st)

/-- `isReady` (lines 511-518). -/
def isReady (st : GenState) : Bool :=
  (jsTrim st.ns != "") && (jsTrim st.np != "") && (jsTrim st.em != "") &&
  (jsTrim st.c != "") && (jsTrim st.p != "") && (jsTrim st.s != "") &&
  (st.selectedSteps.length > 0)

/-- The `disabled={!isReady || !whatsappUrl}` condition of the copy
button (line 1021). -/
def copyControlDisabled (st : GenState) : Bool :=
  !(isReady st) || (whatsappUrl st == "")

/-- The condition under which the open-WhatsApp anchor blocks its
click (`aria-disabled` / `preventDefault`, lines 1031-1034). -/
def openControlBlocked (st : GenState) : Bool :=
  !(isReady st) || (whatsappUrl st == "")

/-- Reserved query keys written by `generatedUrl` before the
intro-field values. -/
def reservedParamKeys : List String := ["c", "p", "s", "steps", "np", "ns", "em"]

end Generateur

namespace Generateur

open Js

/-- Trimming the empty string is empty, so a non-empty trim forces a
non-empty string. -/
theorem ne_empty_of_jsTrim_ne (x : String) (h : jsTrim x ≠ "") : x ≠ "" := by
  intro he
  exact h (by rw [he]; rfl)

theorem lookup_setParam_self (ps : List (String × String)) (k v : String) :
    List.lookup k (setParam ps k v) = some v := by
  induction ps with
  | nil => simp [setParam, List.lookup]
  | cons kv rest ih =>
    obtain ⟨k', v'⟩ := kv
    by_cases h : k' = k
    · simp [setParam, h, List.lookup]
    · simp only [setParam, if_neg h, List.lookup_cons]
      rw [show (k == k') = false from beq_eq_false_iff_ne.mpr (fun hh => h hh.symm)]
      exact ih

theorem lookup_setParam_of_ne (ps : List (String × String)) (k v k' : String)
    (h : k' ≠ k) : List.lookup k' (setParam ps k v) = List.lookup k' ps := by
  induction ps with
  | nil =>
    simp only [setParam, List.lookup_cons]
    rw [show (k' == k) = false from beq_eq_false_iff_ne.mpr h]
  | cons kv rest ih =>
    obtain ⟨a, b⟩ := kv
    by_cases ha : a = k
    · subst ha
      simp only [setParam, if_true]
      simp only [List.lookup_cons]
      rw [show (k' == a) = false from beq_eq_false_iff_ne.mpr h]
    · simp only [setParam, if_neg ha, List.lookup_cons]
      cases hval : (k' == a) with
      | true => rfl
      | false => exact ih

theorem lookup_foldl_ivStep_of_ne (l : List (String × String))
    (ps : List (String × String)) (k' : String) (h : ∀ kv ∈ l, kv.1 ≠ k') :
    List.lookup k' (l.foldl ivStep ps) = List.lookup k' ps := by
  induction l generalizing ps with
  | nil => rfl
  | cons kv t ih =>
    simp only [List.foldl_cons]
    rw [ih _ (fun x hx => h x (List.mem_cons_of_mem _ hx))]
    unfold ivStep
    split
    · exact lookup_setParam_of_ne _ _ _ _ (Ne.symm (h kv (List.mem_cons_self _ _)))
    · rfl

theorem lookup_foldl_ivStep_mem (l : List (String × String))
    (ps : List (String × String)) (k v : String)
    (hnd : (l.map Prod.fst).Nodup) (hmem : (k, v) ∈ l) (hv : jsTrim v ≠ "") :
    List.lookup k (l.foldl ivStep ps) = some (jsTrim v) := by
  induction l generalizing ps with
  | nil => cases hmem
  | cons kv t ih =>
    obtain ⟨k0, v0⟩ := kv
    simp only [List.map_cons, List.nodup_cons] at hnd
    rcases List.mem_cons.mp hmem with heq | ht
    · injection heq with h1 h2
      subst h1
      subst h2
      simp only [List.foldl_cons]
      rw [lookup_foldl_ivStep_of_ne]
      · unfold ivStep
        rw [if_pos ⟨ne_empty_of_jsTrim_ne v hv, hv⟩]
        exact lookup_setParam_self _ _ _
      · intro x hx hxk
        exact hnd.1 (hxk ▸ List.mem_map_of_mem Prod.fst hx)
    · simp only [List.foldl_cons]
      exact ih _ hnd.2 ht

theorem generatedUrl_ne_empty (st : GenState) : generatedUrl st ≠ "" := by
  intro h
  have h2 := congrArg String.data h
  simp [generatedUrl, String.data_append] at h2

theorem whatsappUrl_ne_empty (st : GenState) : whatsappUrl st ≠ "" := by
  unfold whatsappUrl
  rw [if_neg (generatedUrl_ne_empty st)]
  intro h
  have h2 := congrArg String.data h
  simp [String.data_append] at h2

/-- A ready state whose product code is upper-case: the `p` query
parameter carries the normalized legacy label, not the entered code. -/
def cexGenState : GenState :=
  { c := "r1", p := "ABC", s := "f1", np := "n", ns := "m", em := "e",
    selectedSteps := ["k1"], ivData := [] }

/-- C4 counterexample: in a state where every required field is filled
and one step is selected, the generated URL's `p` parameter is `"abc"`
while the entered product value is `"ABC"`, so the query parameters do
not exactly match the entered values. -/
theorem generateur_product_param_counterexample :
    isReady cexGenState = true ∧
    List.lookup "p" (generatedParams cexGenState) = some "abc" ∧
    cexGenState.p = "ABC" ∧ ("abc" : String) ≠ "ABC" := by
  decide

/-- C4 (amended): with every required field non-empty and at least one
step selected, the copy and open controls are enabled, and the query
parameters match the entered values except that `p` carries the
product's label (or code) lower-cased with underscores replaced by
spaces and whitespace collapsed, and intro-field values are trimmed;
with `isReady` false both controls are disabled.  Intro-field keys are
assumed distinct and disjoint from the reserved parameter names, as
they are in the fetched sheet definitions. -/
theorem generateur_link_ready_spec (st : GenState)
    (hnd : (st.ivData.map Prod.fst).Nodup)
    (hres : ∀ kv ∈ st.ivData, kv.1 ∉ reservedParamKeys) :
    (isReady st = false → copyControlDisabled st = true ∧ openControlBlocked st = true) ∧
    (isReady st = true →
      copyControlDisabled st = false ∧ openControlBlocked st = false ∧
      List.lookup "c" (generatedParams st) = some st.c ∧
      List.lookup "p" (generatedParams st) = some (legacyP st) ∧
      List.lookup "s" (generatedParams st) = some st.s ∧
      List.lookup "steps" (generatedParams st) = some (String.intercalate "," st.selectedSteps) ∧
      List.lookup "np" (generatedParams st) = some st.np ∧
      List.lookup "ns" (generatedParams st) = some st.ns ∧
      List.lookup "em" (generatedParams st) = some st.em ∧
      ∀ kv ∈ st.ivData, jsTrim kv.2 ≠ "" →
        List.lookup kv.1 (generatedParams st) = some (jsTrim kv.2)) := by
  have hkd : ∀ kv ∈ st.ivData, ∀ r ∈ reservedParamKeys, kv.1 ≠ r := by
    intro kv hkv r hr he
    exact hres kv hkv (he ▸ hr)
  constructor
  · intro h
    simp [copyControlDisabled, openControlBlocked, h]
  · intro h
    have hb := h
    simp only [isReady, Bool.and_eq_true, bne_iff_ne, ne_eq, decide_eq_true_eq] at h
    obtain ⟨⟨⟨⟨⟨⟨hns, hnp⟩, hem⟩, hc⟩, hp⟩, hs⟩, hlen⟩ := h
    have hc' := ne_empty_of_jsTrim_ne _ hc
    have hp' := ne_empty_of_jsTrim_ne _ hp
    have hs' := ne_empty_of_jsTrim_ne _ hs
    have hnp' := ne_empty_of_jsTrim_ne _ hnp
    have hns' := ne_empty_of_jsTrim_ne _ hns
    have hem' := ne_empty_of_jsTrim_ne _ hem
    have hgp : generatedParams st = st.ivData.foldl ivStep
        [("c", st.c), ("p", legacyP st), ("s", st.s),
         ("steps", String.intercalate "," st.selectedSteps),
         ("np", st.np), ("ns", st.ns), ("em", st.em)] := by
      simp only [generatedParams]
      rw [if_pos hc', if_pos hp', if_pos hs', if_pos hlen, if_pos hnp', if_pos hns',
        if_pos hem']
      simp [setParam]
    have hbase : ∀ r : String, r ∈ reservedParamKeys →
        List.lookup r (generatedParams st) =
          List.lookup r [("c", st.c), ("p", legacyP st), ("s", st.s),
            ("steps", String.intercalate "," st.selectedSteps),
            ("np", st.np), ("ns", st.ns), ("em", st.em)] := by
      intro r hr
      rw [hgp]
      exact lookup_foldl_ivStep_of_ne _ _ _ (fun kv hkv => hkd kv hkv r hr)
    have hw : (whatsappUrl st == "") = false :=
      beq_eq_false_iff_ne.mpr (whatsappUrl_ne_empty st)
    have hdis : copyControlDisabled st = false := by
      simp [copyControlDisabled, hb, hw]
    have hdis2 : openControlBlocked st = false := by
      simp [openControlBlocked, hb, hw]
    refine ⟨hdis, hdis2, ?_, ?_, ?_, ?_, ?_, ?_, ?_, ?_⟩
    · rw [hbase "c" (by decide)]; simp [List.lookup]
    · rw [hbase "p" (by decide)]; simp [List.lookup]
    · rw [hbase "s" (by decide)]; simp [List.lookup]
    · rw [hbase "steps" (by decide)]; simp [List.lookup]
    · rw [hbase "np" (by decide)]; simp [List.lookup]
    · rw [hbase "ns" (by decide)]; simp [List.lookup]
    · rw [hbase "em" (by decide)]; simp [List.lookup]
    · intro kv hkv hkvne
      rw [hgp]
      exact lookup_foldl_ivStep_mem _ _ kv.1 kv.2 hnd (by simpa using hkv) hkvne

/-- A fully filled state with one intro field, used to witness the
ready case of `generateur_link_ready_spec`. -/
def readyGenState : GenState :=
  { c := "r1", p := "PAC1", s := "f1", np := "n", ns := "m", em := "e",
    selectedSteps := ["k1", "k2"], ivData := [("zones", " 2 ")],
    currentProductLabel := some "PAC_Hybride" }

/-- Witness for `generateur_link_ready_spec` at `readyGenState`. -/
theorem generateur_link_ready_spec_witness :
    copyControlDisabled readyGenState = false ∧
    List.lookup "p" (generatedParams readyGenState) = some (legacyP readyGenState) ∧
    List.lookup "steps" (generatedParams readyGenState) = some
      (String.intercalate "," readyGenState.selectedSteps) := by
  have h := (generateur_link_ready_spec readyGenState (by decide) (by decide)).2 (by decide)
  exact ⟨h.1, h.2.2.2.1, h.2.2.2.2.2.1⟩

end Generateur

namespace SavDetail

/-! Embedding of the session/chantier detail page `src/unnamed/part_003`. -/

open Js

mutual

/-- A JavaScript value, as handled by `deepMerge` and the publish
handlers.  Finite numbers are scaled decimals as in `Js.JNum`; arrays
and object field lists are mutual inductives so that the functions
below are structurally recursive and compute in the kernel. -/
inductive JVal where
  | undef
  | null
  | bool (b : Bool)
  | num (m : Int) (e : Nat)
  | str (s : String)
  | arr (elems : JList)
  | obj (fields : JFields)

/-- A JavaScript array's element list. -/
inductive JList where
  | nil
  | cons (hd : JVal) (tl : JList)

/-- A JavaScript object's ordered own fields. -/
inductive JFields where
  | nil
  | cons (key : String) (val : JVal) (tl : JFields)

end

/-- Field list as an ordinary Lean association list (for statements). -/
def JFields.toList : JFields → List (String × JVal)
  | .nil => []
  | .cons k v rest => (k, v) :: rest.toList

/-- Element list as an ordinary Lean list. -/
def JList.toList : JList → List JVal
  | .nil => []
  | .cons v rest => v :: rest.toList

/-- Build an object field list from an association list. -/
def JFields.ofList : List (String × JVal) → JFields
  | [] => .nil
  | (k, v) :: rest => .cons k v (JFields.ofList rest)

/-- Build an array from a list. -/
def JList.ofList : List JVal → JList
  | [] => .nil
  | v :: rest => .cons v (JList.ofList rest)

/-- Object literal `JVal.obj` from an association list. -/
def jobj (l : List (String × JVal)) : JVal := .obj (JFields.ofList l)

/-- Array literal `JVal.arr` from a list. -/
def jarr (l : List JVal) : JVal := .arr (JList.ofList l)

/-- JavaScript truthiness (`NaN` does not occur: it is no literal, and
`deepMerge` and the publish patches only move parsed JSON around). -/
def truthy : JVal → Bool
  | .undef => false
  | .null => false
  | .bool b => b
  | .num m _ => m ≠ 0
  | .str s => s ≠ ""
  | .arr _ => true
  | .obj _ => true

/-- The `typeof v === "object"` test. -/
def isObjType : JVal → Bool
  | .null => true
  | .arr _ => true
  | .obj _ => true
  | _ => false

/-- `Array.isArray`. -/
def isArray : JVal → Bool
  | .arr _ => true
  | _ => false

/-- The guard `v && typeof v === "object" && !Array.isArray(v)` used on
both sides before recursing in `deepMerge`. -/
def isMergeableObj (v : JVal) : Bool :=
  truthy v && isObjType v && !(isArray v)

/-- Index/value fields of an array starting at index `i`, as produced
by `Object.keys` on an array. -/
def indexFields (i : Nat) : JList → JFields
  | .nil => .nil
  | .cons v rest => .cons (Nat.repr i) v (indexFields (i + 1) rest)

/-- `Object.keys`-ordered entries of a value: own fields of an object,
index/element pairs of an array, nothing for primitives. -/
def entriesOf : JVal → JFields
  | .obj fs => fs
  | .arr xs => indexFields 0 xs
  | _ => .nil

/-- First-occurrence field lookup (object keys are unique in JS). -/
def lookupField : JFields → String → Option JVal
  | .nil, _ => none
  | .cons k' v rest, k => if k' = k then some v else lookupField rest k

/-- Property assignment `out[k] = v`: replace in place if the key
exists, append otherwise. -/
def setField : JFields → String → JVal → JFields
  | .nil, k, v => .cons k v .nil
  | .cons k' v' rest, k, v =>
    if k' = k then .cons k v rest else .cons k' v' (setField rest k v)

/-- Property read `v[k]` as an option. -/
def jget (v : JVal) (k : String) : Option JVal :=
  lookupField (entriesOf v) k

/-- `base?.[k]`, yielding `undefined` for a missing key. -/
def bvOf (base : JVal) (k : String) : JVal :=
  (jget base k).getD .undef

mutual

/-- Nesting depth of a value (a modelling device: it supplies the
recursion fuel of `deepMergeFuel`, which `deepMergeFuel_congr` shows
is irrelevant as long as it is sufficient). -/
def jdepth : JVal → Nat
  | .obj fs => fdepth fs + 1
  | .arr xs => ldepth xs + 1
  | _ => 1

def fdepth : JFields → Nat
  | .nil => 0
  | .cons _ v rest => max (jdepth v) (fdepth rest)

def ldepth : JList → Nat
  | .nil => 0
  | .cons v rest => max (jdepth v) (ldepth rest)

end

/-- The `for (const k of Object.keys(patch))` loop of `deepMerge`
walking an object patch, abstracted over the recursive call: for each
patch entry, recurse when both the patch value and the base counterpart
are truthy plain objects, else assign the patch value wholesale. -/
def mergeEntriesF (rec : JVal → JVal → JVal) (base : JVal) (out : JFields) :
    JFields → JFields
  | .nil => out
  | .cons k pv rest =>
    mergeEntriesF rec base
      (setField out k
        (if isMergeableObj pv && isMergeableObj (bvOf base k) then
          rec (bvOf base k) pv
        else pv)) rest

/-- The same loop walking an array patch, whose `Object.keys` are the
decimal indices. -/
def mergeArrF (rec : JVal → JVal → JVal) (base : JVal) (out : JFields) (i : Nat) :
    JList → JFields
  | .nil => out
  | .cons pv rest =>
    mergeArrF rec base
      (setField out (Nat.repr i)
        (if isMergeableObj pv && isMergeableObj (bvOf base (Nat.repr i)) then
          rec (bvOf base (Nat.repr i)) pv
        else pv)) (i + 1) rest

/-- Fuelled embedding of `deepMerge` (part_003, lines 178-191).  The
match on the patch implements `if (!patch || typeof patch !==
"object") return base` exactly: `undefined` and primitives fail the
`typeof` test, and `null` is falsy; arrays and objects are truthy
objects and proceed.  The fuel only bounds the recursion depth so the
definition is structural; `deepMerge` below supplies a sufficient fuel
and `deepMergeFuel_congr` shows every sufficient fuel agrees.  The
result of the processed branch is represented by its property map (an
array base with assigned string keys — never produced by the embedded
call sites, nor by the recursive calls, which require plain objects on
both sides — has no other representative). -/
def deepMergeFuel : Nat → JVal → JVal → JVal
  | 0 => fun base _ => base
  | fuel + 1 => fun base patch =>
    match patch with
    | .obj pfs => .obj (mergeEntriesF (deepMergeFuel fuel) base (entriesOf base) pfs)
    | .arr xs => .obj (mergeArrF (deepMergeFuel fuel) base (entriesOf base) 0 xs)
    | _ => base

/-- `deepMerge(base, patch)`. -/
def deepMerge (base patch : JVal) : JVal :=
  deepMergeFuel (jdepth patch) base patch

end SavDetail

namespace SavDetail

theorem one_le_jdepth (v : JVal) : 1 ≤ jdepth v := by
  cases v <;> simp [jdepth]

theorem jdepth_le_fdepth_of_mem : ∀ (fs : JFields) (k : String) (pv : JVal),
    (k, pv) ∈ fs.toList → jdepth pv ≤ fdepth fs
  | .nil, _, _, h => nomatch h
  | .cons k0 v0 rest, k, pv, h => by
    simp only [JFields.toList] at h
    rcases List.mem_cons.mp h with heq | ht
    · injection heq with h1 h2
      subst h2
      simp [fdepth, le_max_iff]
    · exact le_trans (jdepth_le_fdepth_of_mem rest k pv ht) (by simp [fdepth, le_max_iff])

theorem jdepth_le_ldepth_of_mem : ∀ (xs : JList) (pv : JVal),
    pv ∈ xs.toList → jdepth pv ≤ ldepth xs
  | .nil, _, h => nomatch h
  | .cons v0 rest, pv, h => by
    simp only [JList.toList] at h
    rcases List.mem_cons.mp h with heq | ht
    · subst heq
      simp [ldepth, le_max_iff]
    · exact le_trans (jdepth_le_ldepth_of_mem rest pv ht) (by simp [ldepth, le_max_iff])

theorem mem_indexFields : ∀ (xs : JList) (i : Nat) (k : String) (pv : JVal),
    (k, pv) ∈ (indexFields i xs).toList → pv ∈ xs.toList
  | .nil, _, _, _, h => nomatch h
  | .cons v0 rest, i, k, pv, h => by
    simp only [indexFields, JFields.toList] at h
    rcases List.mem_cons.mp h with heq | ht
    · injection heq with h1 h2
      subst h2
      simp [JList.toList]
    · simp only [JList.toList, List.mem_cons]
      exact Or.inr (mem_indexFields rest (i + 1) k pv ht)

theorem lookup_setField_self : ∀ (out : JFields) (k : String) (v : JVal),
    lookupField (setField out k v) k = some v
  | .nil, k, v => by simp [setField, lookupField]
  | .cons k' v' rest, k, v => by
    by_cases h : k' = k
    · simp [setField, h, lookupField]
    · simp [setField, h, lookupField, lookup_setField_self rest k v]

theorem lookup_setField_of_ne : ∀ (out : JFields) (k : String) (v : JVal) (k' : String),
    k' ≠ k → lookupField (setField out k v) k' = lookupField out k'
  | .nil, k, v, k', h => by
    simp only [setField, lookupField]
    rw [if_neg (fun hh => h hh.symm)]
  | .cons a b rest, k, v, k', h => by
    by_cases ha : a = k
    · subst ha
      simp only [setField, if_pos rfl, lookupField]
      rw [if_neg (fun hh => h hh.symm), if_neg (fun hh => h hh.symm)]
    · simp only [setField, if_neg ha, lookupField]
      by_cases hb : a = k'
      · simp [hb]
      · simp [hb, lookup_setField_of_ne rest k v k' h]

theorem lookup_mergeEntriesF_of_ne (rec : JVal → JVal → JVal) (base : JVal) :
    ∀ (es : JFields) (out : JFields) (k' : String),
    (∀ kv ∈ es.toList, kv.1 ≠ k') →
    lookupField (mergeEntriesF rec base out es) k' = lookupField out k'
  | .nil, _, _, _ => rfl
  | .cons k pv rest, out, k', h => by
    simp only [mergeEntriesF]
    rw [lookup_mergeEntriesF_of_ne rec base rest _ k'
      (fun kv hkv => h kv (by simp only [JFields.toList, List.mem_cons]; exact Or.inr hkv))]
    exact lookup_setField_of_ne _ _ _ _
      (Ne.symm (h (k, pv) (by simp [JFields.toList])))

theorem lookup_mergeEntriesF_mem (rec : JVal → JVal → JVal) (base : JVal) :
    ∀ (es : JFields) (out : JFields) (k : String) (pv : JVal),
    (es.toList.map Prod.fst).Nodup → (k, pv) ∈ es.toList →
    lookupField (mergeEntriesF rec base out es) k =
      some (if isMergeableObj pv && isMergeableObj (bvOf base k) then
        rec (bvOf base k) pv else pv)
  | .nil, _, _, _, _, hmem => nomatch hmem
  | .cons k0 v0 rest, out, k, pv, hnd, hmem => by
    simp only [JFields.toList, List.map_cons, List.nodup_cons] at hnd hmem
    rcases List.mem_cons.mp hmem with heq | ht
    · injection heq with h1 h2
      subst h1
      subst h2
      simp only [mergeEntriesF]
      rw [lookup_mergeEntriesF_of_ne]
      · exact lookup_setField_self _ _ _
      · intro kv hkv hk
        exact hnd.1 (hk ▸ List.mem_map_of_mem Prod.fst hkv)
    · simp only [mergeEntriesF]
      exact lookup_mergeEntriesF_mem rec base rest _ k pv hnd.2 ht

theorem mergeArrF_eq (rec : JVal → JVal → JVal) (base : JVal) :
    ∀ (xs : JList) (out : JFields) (i : Nat),
    mergeArrF rec base out i xs = mergeEntriesF rec base out (indexFields i xs)
  | .nil, _, _ => rfl
  | .cons v0 rest, out, i => by
    simp only [mergeArrF, indexFields, mergeEntriesF]
    exact mergeArrF_eq rec base rest _ _

theorem mergeEntriesF_congr (rec1 rec2 : JVal → JVal → JVal) (base : JVal) :
    ∀ (es : JFields) (out : JFields),
    (∀ kv ∈ es.toList, rec1 (bvOf base kv.1) kv.2 = rec2 (bvOf base kv.1) kv.2) →
    mergeEntriesF rec1 base out es = mergeEntriesF rec2 base out es
  | .nil, _, _ => rfl
  | .cons k pv rest, out, h => by
    simp only [mergeEntriesF]
    rw [h (k, pv) (by simp [JFields.toList])]
    exact mergeEntriesF_congr rec1 rec2 base rest _
      (fun kv hkv => h kv (by simp only [JFields.toList, List.mem_cons]; exact Or.inr hkv))

theorem deepMergeFuel_congr (f1 : Nat) (f2 : Nat) (base patch : JVal)
    (h1 : jdepth patch ≤ f1) (h2 : jdepth patch ≤ f2) :
    deepMergeFuel f1 base patch = deepMergeFuel f2 base patch := by
  induction f1 generalizing f2 base patch with
  | zero => exact absurd (le_trans (one_le_jdepth patch) h1) (by simp)
  | succ n ih =>
    cases f2 with
    | zero => exact absurd (le_trans (one_le_jdepth patch) h2) (by simp)
    | succ m =>
      cases patch with
      | obj pfs =>
        simp only [deepMergeFuel]
        congr 1
        apply mergeEntriesF_congr
        intro kv hkv
        have hd : jdepth kv.2 ≤ fdepth pfs := by
          have := jdepth_le_fdepth_of_mem pfs kv.1 kv.2 (by simpa using hkv)
          exact this
        have hf1 : fdepth pfs ≤ n := by
          simp only [jdepth] at h1
          omega
        have hf2 : fdepth pfs ≤ m := by
          simp only [jdepth] at h2
          omega
        exact ih m _ _ (le_trans hd hf1) (le_trans hd hf2)
      | arr xs =>
        simp only [deepMergeFuel, mergeArrF_eq]
        congr 1
        apply mergeEntriesF_congr
        intro kv hkv
        have hd : jdepth kv.2 ≤ ldepth xs :=
          jdepth_le_ldepth_of_mem xs kv.2 (mem_indexFields xs 0 kv.1 kv.2 (by simpa using hkv))
        have hf1 : ldepth xs ≤ n := by
          simp only [jdepth] at h1
          omega
        have hf2 : ldepth xs ≤ m := by
          simp only [jdepth] at h2
          omega
        exact ih m _ _ (le_trans hd hf1) (le_trans hd hf2)
      | undef => rfl
      | null => rfl
      | bool b => rfl
      | num m' e => rfl
      | str s => rfl

/-- C9: `deepMerge` obeys the stated conflict rule: a key present in
the patch whose value or base counterpart is not a truthy plain object
(arrays included) is replaced wholesale by the patch value; a key where
both sides are plain objects is merged recursively; and every key
absent from the patch keeps its base value.  Patch keys are unique, as
`Object.keys` guarantees. -/
theorem deepMerge_spec (bs : JFields) (patch : JVal)
    (hpnd : ((entriesOf patch).toList.map Prod.fst).Nodup) :
    (∀ k pv, (k, pv) ∈ (entriesOf patch).toList →
      ((isMergeableObj pv && isMergeableObj (bvOf (.obj bs) k)) = false →
        jget (deepMerge (.obj bs) patch) k = some pv) ∧
      ((isMergeableObj pv && isMergeableObj (bvOf (.obj bs) k)) = true →
        jget (deepMerge (.obj bs) patch) k =
          some (deepMerge (bvOf (.obj bs) k) pv))) ∧
    (∀ k, k ∉ (entriesOf patch).toList.map Prod.fst →
      jget (deepMerge (.obj bs) patch) k = lookupField bs k) := by
  cases patch with
  | obj pfs =>
    simp only [entriesOf] at hpnd ⊢
    have hform : deepMerge (.obj bs) (.obj pfs) =
        .obj (mergeEntriesF (deepMergeFuel (fdepth pfs)) (.obj bs) bs pfs) := by
      simp [deepMerge, jdepth, deepMergeFuel, entriesOf]
    constructor
    · intro k pv hm
      have hval : lookupField (mergeEntriesF (deepMergeFuel (fdepth pfs)) (.obj bs) bs pfs) k =
          some (if isMergeableObj pv && isMergeableObj (bvOf (.obj bs) k) then
            deepMergeFuel (fdepth pfs) (bvOf (.obj bs) k) pv else pv) :=
        lookup_mergeEntriesF_mem _ _ _ _ _ _ hpnd hm
      have hrec : deepMergeFuel (fdepth pfs) (bvOf (.obj bs) k) pv =
          deepMerge (bvOf (.obj bs) k) pv :=
        deepMergeFuel_congr _ _ _ _ (jdepth_le_fdepth_of_mem pfs k pv hm) le_rfl
      constructor
      · intro hcond
        rw [hform]
        simp only [jget, entriesOf]
        rw [hval, hcond]
        simp
      · intro hcond
        rw [hform]
        simp only [jget, entriesOf]
        rw [hval, hcond, if_pos rfl, hrec]
    · intro k hk
      rw [hform]
      simp only [jget, entriesOf]
      rw [lookup_mergeEntriesF_of_ne]
      intro kv hkv he
      exact hk (he ▸ List.mem_map_of_mem Prod.fst hkv)
  | arr xs =>
    simp only [entriesOf] at hpnd ⊢
    have hform : deepMerge (.obj bs) (.arr xs) =
        .obj (mergeEntriesF (deepMergeFuel (ldepth xs)) (.obj bs) bs (indexFields 0 xs)) := by
      simp [deepMerge, jdepth, deepMergeFuel, entriesOf, mergeArrF_eq]
    constructor
    · intro k pv hm
      have hrec : deepMergeFuel (ldepth xs) (bvOf (.obj bs) k) pv =
          deepMerge (bvOf (.obj bs) k) pv :=
        deepMergeFuel_congr _ _ _ _
          (jdepth_le_ldepth_of_mem xs pv (mem_indexFields xs 0 k pv hm)) le_rfl
      constructor
      · intro hcond
        rw [hform]
        simp only [jget, entriesOf]
        rw [lookup_mergeEntriesF_mem _ _ _ _ _ _ hpnd hm, hcond]
        simp
      · intro hcond
        rw [hform]
        simp only [jget, entriesOf]
        rw [lookup_mergeEntriesF_mem _ _ _ _ _ _ hpnd hm, hcond, if_pos rfl, hrec]
    · intro k hk
      rw [hform]
      simp only [jget, entriesOf]
      rw [lookup_mergeEntriesF_of_ne]
      intro kv hkv he
      exact hk (he ▸ List.mem_map_of_mem Prod.fst hkv)
  | undef =>
    refine ⟨fun k pv hm => (nomatch hm), fun k _ => ?_⟩
    simp [deepMerge, jdepth, deepMergeFuel, jget, entriesOf]
  | null =>
    refine ⟨fun k pv hm => (nomatch hm), fun k _ => ?_⟩
    simp [deepMerge, jdepth, deepMergeFuel, jget, entriesOf]
  | bool b =>
    refine ⟨fun k pv hm => (nomatch hm), fun k _ => ?_⟩
    simp [deepMerge, jdepth, deepMergeFuel, jget, entriesOf]
  | num m e =>
    refine ⟨fun k pv hm => (nomatch hm), fun k _ => ?_⟩
    simp [deepMerge, jdepth, deepMergeFuel, jget, entriesOf]
  | str s =>
    refine ⟨fun k pv hm => (nomatch hm), fun k _ => ?_⟩
    simp [deepMerge, jdepth, deepMergeFuel, jget, entriesOf]

/-- Base object for the `deepMerge_spec` witness. -/
def dmBase : JFields :=
  JFields.ofList [("a", .num 1 0), ("nested", jobj [("x", .str "s")]), ("keep", .bool true)]

/-- Patch for the `deepMerge_spec` witness: an array value replaces
wholesale, a nested object merges recursively, `keep` is untouched. -/
def dmPatch : JVal :=
  jobj [("a", jarr [.num 2 0]), ("nested", jobj [("y", .null)])]

/-- Witness for `deepMerge_spec` at a concrete base and patch. -/
theorem deepMerge_spec_witness :
    jget (deepMerge (.obj dmBase) dmPatch) "a" = some (jarr [.num 2 0]) ∧
    jget (deepMerge (.obj dmBase) dmPatch) "nested" =
      some (deepMerge (bvOf (.obj dmBase) "nested") (jobj [("y", .null)])) ∧
    jget (deepMerge (.obj dmBase) dmPatch) "keep" = some (.bool true) := by
  have h := deepMerge_spec dmBase dmPatch (by decide)
  refine ⟨?_, ?_, ?_⟩
  · exact (h.1 "a" (jarr [.num 2 0]) (by simp [dmPatch, jobj, JFields.ofList,
      entriesOf, JFields.toList])).1 rfl
  · exact (h.1 "nested" (jobj [("y", .null)]) (by simp [dmPatch, jobj, JFields.ofList,
      entriesOf, JFields.toList])).2 rfl
  · exact (h.2 "keep" (by decide)).trans rfl

end SavDetail

namespace SavDetail

/-- `SessionPhoto` (part_003 lines 21-30; further payload members do
not influence the aggregation and are represented by `url` and
`timestamp`). -/
structure SessionPhoto where
  id : String
  url : String := ""
  timestamp : Option Int := none
  __session_id : Option String := none
  __photo_id : Option String := none
deriving DecidableEq, Repr

/-- The members of `SessionDetail` (part_003 lines 51-91) that the
aggregation reads. -/
structure SessionDetail where
  session_id : String
  created_at : Option Int := none
  updated_at : Option Int := none
  status : Option String := none
  photos : Option (List SessionPhoto) := none
deriving DecidableEq, Repr

/-- `typeof x === "number" ? x : 0`. -/
def tsNum (x : Option Int) : Int := x.getD 0

/-- The comparator of `buildChantierAggregatedPhotos`'s session sort
(lines 232-239): ascending `created_at`, then ascending `updated_at`.
`aggSessLt a b` holds when the comparator returns a negative value. -/
def aggSessLt (a b : SessionDetail) : Bool :=
  tsNum a.created_at < tsNum b.created_at ∨
  (tsNum a.created_at = tsNum b.created_at ∧ tsNum a.updated_at < tsNum b.updated_at)

/-- Stable insertion placing `x` before the first element it strictly
precedes, as a stable comparator sort does. -/
def insertSorted (x : SessionDetail) : List SessionDetail → List SessionDetail
  | [] => [x]
  | y :: ys => if aggSessLt y x then y :: insertSorted x ys else x :: y :: ys

/-- The stable sort `[...sessions].sort(...)` of
`buildChantierAggregatedPhotos`. -/
def sortSessionsForAgg : List SessionDetail → List SessionDetail
  | [] => []
  | x :: xs => insertSorted x (sortSessionsForAgg xs)

/-- `(s.photos || [])`. -/
def photosOf (s : SessionDetail) : List SessionPhoto := s.photos.getD []

/-- An `idMap` entry `{ session_id, photo_id }`. -/
structure PhotoRef where
  session_id : String
  photo_id : String
deriving DecidableEq, Repr

/-- Return value of `buildChantierAggregatedPhotos`. -/
structure AggResult where
  photos : List SessionPhoto
  idMap : List (String × PhotoRef)
deriving DecidableEq, Repr

/-- The collision loop `while (idMap[finalId]) finalId = composite +
"__" + k++` from candidate index `k` on.  The fuel is always
sufficient (the candidates are pairwise distinct while the key set is
finite), so the fuel-exhausted fallback, which returns the next
candidate unchecked, is never reached. -/
def freshIdAux (composite : String) (keys : List String) : Nat → Nat → String
  | k, 0 => composite ++ "__" ++ Nat.repr k
  | k, fuel + 1 =>
    let cand := composite ++ "__" ++ Nat.repr k
    if cand ∈ keys then freshIdAux composite keys (k + 1) fuel else cand

/-- The `finalId` computation of `buildChantierAggregatedPhotos`
(lines 251-255): the composite itself when free, else the first free
`composite__k` with `k >= 2`. -/
def freshId (composite : String) (keys : List String) : String :=
  if composite ∈ keys then freshIdAux composite keys 2 (keys.length + 1) else composite

/-- `sid ++ "__" ++ pid`. -/
def compositeOf (sid pid : String) : String := sid ++ "__" ++ pid

/-- One iteration of the inner photo loop (lines 244-264): skip when
the session id or photo id is empty, else emit the photo under its
fresh composite id and record the back-mapping. -/
def processPhoto (sid : String) (acc : AggResult) (p : SessionPhoto) : AggResult :=
  if sid = "" ∨ p.id = "" then acc
  else
    let composite := compositeOf sid p.id
    let finalId := freshId composite (acc.idMap.map Prod.fst)
    { photos := acc.photos ++
        [{ p with id := finalId, __session_id := some sid, __photo_id := some p.id }],
      idMap := acc.idMap ++ [(finalId, ⟨sid, p.id⟩)] }

/-- One iteration of the outer session loop. -/
def processSession (acc : AggResult) (s : SessionDetail) : AggResult :=
  (photosOf s).foldl (processPhoto s.session_id) acc

/-- Embedding of `buildChantierAggregatedPhotos` (part_003, lines
225-268). -/
def buildChantierAggregatedPhotos (sessions : List SessionDetail) : AggResult :=
  (sortSessionsForAgg sessions).foldl processSession ⟨[], []⟩

/-- The composite ids a session contributes. -/
def sessionComposites (s : SessionDetail) : List String :=
  (photosOf s).map (fun p => compositeOf s.session_id p.id)

/-- All composite ids of a session list, in traversal order. -/
def allComposites (ss : List SessionDetail) : List String :=
  ss.flatMap sessionComposites

/-- The photo entry the aggregation emits for a photo of session `sid`
when its composite id is free. -/
def aggPhoto (sid : String) (p : SessionPhoto) : SessionPhoto :=
  { p with id := compositeOf sid p.id, __session_id := some sid, __photo_id := some p.id }

/-- The photo list the aggregation emits when no composite collides. -/
def expPhotos (ss : List SessionDetail) : List SessionPhoto :=
  ss.flatMap (fun s => (photosOf s).map (aggPhoto s.session_id))

/-- The id map the aggregation emits when no composite collides. -/
def expMap (ss : List SessionDetail) : List (String × PhotoRef) :=
  ss.flatMap (fun s => (photosOf s).map
    (fun p => (compositeOf s.session_id p.id, PhotoRef.mk s.session_id p.id)))

theorem insertSorted_perm (x : SessionDetail) (l : List SessionDetail) :
    (insertSorted x l).Perm (x :: l) := by
  induction l with
  | nil => exact List.Perm.refl _
  | cons y ys ih =>
    simp only [insertSorted]
    split
    · exact (ih.cons y).trans (List.Perm.swap x y ys)
    · exact List.Perm.refl _

theorem sortSessionsForAgg_perm (l : List SessionDetail) :
    (sortSessionsForAgg l).Perm l := by
  induction l with
  | nil => exact List.Perm.refl _
  | cons x xs ih => exact (insertSorted_perm x (sortSessionsForAgg xs)).trans (ih.cons x)

theorem freshId_of_not_mem (composite : String) (keys : List String)
    (h : composite ∉ keys) : freshId composite keys = composite := by
  simp [freshId, h]

theorem lookup_of_mem_of_nodup {β : Type} (l : List (String × β)) (k : String) (v : β)
    (hmem : (k, v) ∈ l) (hnd : (l.map Prod.fst).Nodup) : List.lookup k l = some v := by
  induction l with
  | nil => cases hmem
  | cons kv t ih =>
    obtain ⟨k0, v0⟩ := kv
    simp only [List.map_cons, List.nodup_cons] at hnd
    rcases List.mem_cons.mp hmem with heq | ht
    · injection heq with h1 h2
      subst h1
      subst h2
      simp [List.lookup]
    · have hkne : (k == k0) = false := by
        refine beq_eq_false_iff_ne.mpr (fun he => ?_)
        exact hnd.1 (he ▸ List.mem_map_of_mem Prod.fst ht)
      simp only [List.lookup_cons, hkne]
      exact ih ht hnd.2

theorem foldl_processPhoto (sid : String) (hsid : sid ≠ "") :
    ∀ (ps : List SessionPhoto) (acc : AggResult),
    (∀ p ∈ ps, p.id ≠ "") →
    (acc.idMap.map Prod.fst ++ ps.map (fun p => compositeOf sid p.id)).Nodup →
    ps.foldl (processPhoto sid) acc =
      ⟨acc.photos ++ ps.map (aggPhoto sid),
       acc.idMap ++ ps.map (fun p => (compositeOf sid p.id, PhotoRef.mk sid p.id))⟩ := by
  intro ps
  induction ps with
  | nil =>
    intro acc _ _
    simp
  | cons p rest ih =>
    intro acc hids hnd
    have hpid : p.id ≠ "" := hids p (List.mem_cons_self _ _)
    have hfree : compositeOf sid p.id ∉ acc.idMap.map Prod.fst := by
      intro hmem
      rcases List.nodup_append.mp hnd with ⟨_, _, hdisj⟩
      exact hdisj hmem (by simp)
    have hstep : processPhoto sid acc p =
        ⟨acc.photos ++ [aggPhoto sid p],
         acc.idMap ++ [(compositeOf sid p.id, PhotoRef.mk sid p.id)]⟩ := by
      simp only [processPhoto]
      rw [if_neg (by simp [hsid, hpid])]
      rw [freshId_of_not_mem _ _ hfree]
      rfl
    simp only [List.foldl_cons, hstep]
    rw [ih _ (fun q hq => hids q (List.mem_cons_of_mem _ hq))]
    · simp
    · simpa using hnd

theorem foldl_processSession :
    ∀ (ss : List SessionDetail) (acc : AggResult),
    (∀ s ∈ ss, s.session_id ≠ "" ∧ ∀ p ∈ photosOf s, p.id ≠ "") →
    (acc.idMap.map Prod.fst ++ allComposites ss).Nodup →
    ss.foldl processSession acc = ⟨acc.photos ++ expPhotos ss, acc.idMap ++ expMap ss⟩ := by
  intro ss
  induction ss with
  | nil =>
    intro acc _ _
    simp [expPhotos, expMap]
  | cons s rest ih =>
    intro acc hval hnd
    have hs := hval s (List.mem_cons_self _ _)
    have hnd1 : (acc.idMap.map Prod.fst ++
        (photosOf s).map (fun p => compositeOf s.session_id p.id)).Nodup := by
      have : (acc.idMap.map Prod.fst ++ sessionComposites s).Nodup := by
        have h2 := hnd
        simp only [allComposites, List.flatMap_cons, ← List.append_assoc] at h2
        exact h2.of_append_left
      simpa [sessionComposites] using this
    have hstep := foldl_processPhoto s.session_id hs.1 (photosOf s) acc hs.2 hnd1
    simp only [List.foldl_cons, processSession, hstep]
    rw [ih _ (fun t ht => hval t (List.mem_cons_of_mem _ ht))]
    · simp [expPhotos, expMap, sessionComposites]
    · simp only [List.map_append, List.map_map]
      have : ((acc.idMap.map Prod.fst ++ sessionComposites s) ++ allComposites rest).Nodup := by
        simpa [allComposites, List.append_assoc] using hnd
      simpa [sessionComposites, Function.comp] using this

theorem map_id_expPhotos (ss : List SessionDetail) :
    (expPhotos ss).map SessionPhoto.id = allComposites ss := by
  simp only [expPhotos, allComposites, List.map_flatMap]
  congr 1
  funext s
  rw [List.map_map, sessionComposites]
  exact List.map_congr_left (fun p _ => rfl)

theorem map_fst_expMap (ss : List SessionDetail) :
    (expMap ss).map Prod.fst = allComposites ss := by
  simp only [expMap, allComposites, List.map_flatMap]
  congr 1
  funext s
  rw [List.map_map, sessionComposites]
  exact List.map_congr_left (fun p _ => rfl)

/-- C1 (amended): for sessions with non-empty session ids, photos with
non-empty ids, and pairwise-distinct composite ids `sid__pid` (when a
composite repeats, the later entry gets a `__k` suffix instead, see the
counterexample), `buildChantierAggregatedPhotos` yields one entry per
origin photo whose id is the composite of its origin, all entry ids are
pairwise distinct, and `idMap` maps each composite back to the origin
session id and photo id. -/
theorem buildChantierAggregatedPhotos_spec (sessions : List SessionDetail)
    (hval : ∀ s ∈ sessions, s.session_id ≠ "" ∧ ∀ p ∈ photosOf s, p.id ≠ "")
    (hnd : (allComposites sessions).Nodup) :
    ((buildChantierAggregatedPhotos sessions).photos.map SessionPhoto.id).Perm
        (allComposites sessions) ∧
    ((buildChantierAggregatedPhotos sessions).photos.map SessionPhoto.id).Nodup ∧
    (∀ s ∈ sessions, ∀ p ∈ photosOf s,
      List.lookup (compositeOf s.session_id p.id)
          (buildChantierAggregatedPhotos sessions).idMap =
        some ⟨s.session_id, p.id⟩) ∧
    (∀ ph ∈ (buildChantierAggregatedPhotos sessions).photos,
      ∃ s ∈ sessions, ∃ p ∈ photosOf s, ph = aggPhoto s.session_id p) := by
  have hperm := sortSessionsForAgg_perm sessions
  have hcperm : (allComposites (sortSessionsForAgg sessions)).Perm (allComposites sessions) :=
    List.Perm.flatMap_right sessionComposites hperm
  have hvalS : ∀ s ∈ sortSessionsForAgg sessions,
      s.session_id ≠ "" ∧ ∀ p ∈ photosOf s, p.id ≠ "" :=
    fun s hs => hval s (hperm.mem_iff.mp hs)
  have hndS : (allComposites (sortSessionsForAgg sessions)).Nodup :=
    hcperm.nodup_iff.mpr hnd
  have hfold := foldl_processSession (sortSessionsForAgg sessions) ⟨[], []⟩ hvalS
    (by simpa using hndS)
  have hphotos : (buildChantierAggregatedPhotos sessions).photos =
      expPhotos (sortSessionsForAgg sessions) := by
    simp [buildChantierAggregatedPhotos, hfold]
  have hidMap : (buildChantierAggregatedPhotos sessions).idMap =
      expMap (sortSessionsForAgg sessions) := by
    simp [buildChantierAggregatedPhotos, hfold]
  refine ⟨?_, ?_, ?_, ?_⟩
  · rw [hphotos, map_id_expPhotos]
    exact hcperm
  · rw [hphotos, map_id_expPhotos]
    exact hndS
  · intro s hs p hp
    rw [hidMap]
    refine lookup_of_mem_of_nodup _ _ _ ?_ ?_
    · exact List.mem_flatMap.mpr ⟨s, hperm.mem_iff.mpr hs, List.mem_map_of_mem _ hp⟩
    · rw [map_fst_expMap]
      exact hndS
  · intro ph hph
    rw [hphotos] at hph
    obtain ⟨s, hs, hm⟩ := List.mem_flatMap.mp hph
    obtain ⟨p, hp, hpe⟩ := List.mem_map.mp hm
    exact ⟨s, hperm.mem_iff.mp hs, p, hp, hpe.symm⟩

/-- A single session carrying the same photo id twice: both entries
fall under the claim's hypotheses, yet the second output id is not the
composite of its origin. -/
def cexAggSessions : List SessionDetail :=
  [{ session_id := "s", photos := some [{ id := "p" }, { id := "p" }] }]

/-- C1 counterexample: with two origin photos both named `p` in session
`s`, the output ids are `s__p` and `s__p__2`, and `s__p__2` is not the
composite `sessionId__photoId` of any origin photo. -/
theorem buildChantierAggregatedPhotos_counterexample :
    ((buildChantierAggregatedPhotos cexAggSessions).photos.map SessionPhoto.id) =
      ["s__p", "s__p__2"] ∧
    ¬ ∃ s ∈ cexAggSessions, ∃ p ∈ photosOf s,
        "s__p__2" = compositeOf s.session_id p.id := by
  constructor
  · decide
  · decide

/-- First session of the spec's example. -/
def specAggS1 : SessionDetail :=
  { session_id := "s1", created_at := some 1, photos := some [{ id := "p1", url := "u1" }] }

/-- Second session of the spec's example, carrying the same photo id. -/
def specAggS2 : SessionDetail :=
  { session_id := "s2", created_at := some 2, photos := some [{ id := "p1", url := "u2" }] }

/-- The spec's own example: two sessions `s1` and `s2` both containing
a photo `p1`. -/
def specAggSessions : List SessionDetail := [specAggS1, specAggS2]

/-- Witness for `buildChantierAggregatedPhotos_spec` on the spec's
example: distinct entries `s1__p1` and `s2__p1`, each back-mapped. -/
theorem buildChantierAggregatedPhotos_spec_witness :
    ((buildChantierAggregatedPhotos specAggSessions).photos.map SessionPhoto.id).Nodup ∧
    List.lookup "s1__p1" (buildChantierAggregatedPhotos specAggSessions).idMap =
      some ⟨"s1", "p1"⟩ ∧
    List.lookup "s2__p1" (buildChantierAggregatedPhotos specAggSessions).idMap =
      some ⟨"s2", "p1"⟩ := by
  have h := buildChantierAggregatedPhotos_spec specAggSessions (by decide) (by decide)
  exact ⟨h.2.1,
    h.2.2.1 specAggS1 (by decide) { id := "p1", url := "u1" } (by decide),
    h.2.2.1 specAggS2 (by decide) { id := "p1", url := "u2" } (by decide)⟩

end SavDetail

namespace SavDetail

open Js

/-- `NoteAsset` (part_003 lines 32-39; members the embedded handlers do
not read are omitted). -/
structure NoteAsset where
  asset_id : String
  filename : Option String := none
  asset_url : Option String := none
deriving DecidableEq, Repr

/-- `SavNote` (part_003 lines 130-141). -/
structure SavNote where
  id : String
  text : String
  photo_ids : List String
  assets : List NoteAsset := []
  created_at : Option Int := none
  updated_at : Option Int := none
deriving DecidableEq, Repr

/-- A toast `{ type, message }` (part_003 line 128). -/
structure Toast where
  type : String
  message : String
deriving DecidableEq, Repr

/-- The state slices `upsertNote` reads and writes. -/
structure NoteEditorState where
  notes : List SavNote
  activeNoteId : Option String
  noteText : String
  notePhotos : List String
  selectedAssetId : Option String := none
  toast : Option Toast := none
deriving DecidableEq, Repr

/-- `Array.from(new Set(l))`: keep the first occurrence of each
element, in insertion order. -/
def jsSetDedupAux (seen : List String) : List String → List String
  | [] => []
  | x :: xs =>
    if x ∈ seen then jsSetDedupAux seen xs else x :: jsSetDedupAux (seen ++ [x]) xs

def jsSetDedup (l : List String) : List String := jsSetDedupAux [] l

/-- Embedding of `upsertNote` (part_003, lines 967-1023).  `now` is
`Math.floor(Date.now() / 1000)` and `freshNoteId` the value
`uid("note")` would produce, both passed in as the environment. -/
def upsertNote (st : NoteEditorState) (now : Int) (freshNoteId : String) : NoteEditorState :=
  let cleanedText := jsTrim st.noteText
  if cleanedText = "" then
    { st with toast := some ⟨"error", "Écris au moins une recommandation SAV dans la note."⟩ }
  else
    let cleanedPhotos := jsSetDedup (st.notePhotos.filter (fun p => p ≠ ""))
    match st.activeNoteId with
    | some anid =>
      if st.notes.any (fun n => n.id == anid) then
        { st with
          notes := st.notes.map (fun n =>
            if n.id == anid then
              { n with text := cleanedText, photo_ids := cleanedPhotos, updated_at := some now }
            else n),
          toast := some ⟨"success", "Note SAV mise à jour."⟩ }
      else
        let newNote : SavNote :=
          { id := anid, text := cleanedText, photo_ids := cleanedPhotos,
            assets := [], created_at := some now, updated_at := some now }
        { st with
          notes := newNote :: st.notes,
          toast := some ⟨"success", "Note SAV créée."⟩ }
    | none =>
      let newNote : SavNote :=
        { id := freshNoteId, text := cleanedText, photo_ids := cleanedPhotos,
          assets := [], created_at := some now, updated_at := some now }
      { st with
        notes := newNote :: st.notes,
        activeNoteId := some freshNoteId,
        selectedAssetId := none,
        toast := some ⟨"success", "Note SAV créée."⟩ }

/-- C5: `upsertNote` rejects blank (empty or whitespace-only) text,
leaving the notes list unchanged and signalling an error; with
non-empty text, no active note, and exactly one non-empty linked photo
id, it prepends exactly one new note carrying the generated id (unique
as long as the generated id is fresh), the full trimmed text, and
exactly that photo id. -/
theorem upsertNote_spec (st : NoteEditorState) (now : Int) (freshNoteId : String) :
    (jsTrim st.noteText = "" →
      (upsertNote st now freshNoteId).notes = st.notes ∧
      (upsertNote st now freshNoteId).toast =
        some ⟨"error", "Écris au moins une recommandation SAV dans la note."⟩) ∧
    (∀ pid, jsTrim st.noteText ≠ "" → st.activeNoteId = none → st.notePhotos = [pid] →
      pid ≠ "" → freshNoteId ∉ st.notes.map SavNote.id →
      (upsertNote st now freshNoteId).notes =
        { id := freshNoteId, text := jsTrim st.noteText, photo_ids := [pid], assets := [],
          created_at := some now, updated_at := some now } :: st.notes ∧
      (upsertNote st now freshNoteId).notes.length = st.notes.length + 1 ∧
      (∀ n ∈ st.notes, n.id ≠ freshNoteId) ∧
      (upsertNote st now freshNoteId).toast = some ⟨"success", "Note SAV créée."⟩) := by
  constructor
  · intro hblank
    simp [upsertNote, hblank]
  · intro pid htext hactive hphotos hpid hfresh
    have hform : (upsertNote st now freshNoteId).notes =
        { id := freshNoteId, text := jsTrim st.noteText, photo_ids := [pid], assets := [],
          created_at := some now, updated_at := some now } :: st.notes := by
      simp only [upsertNote, if_neg htext, hactive, hphotos]
      simp [jsSetDedup, jsSetDedupAux, hpid]
    refine ⟨hform, by rw [hform]; simp, ?_, ?_⟩
    · intro n hn he
      exact hfresh (he ▸ List.mem_map_of_mem SavNote.id hn)
    · simp [upsertNote, if_neg htext, hactive]

/-- Concrete editor state for the `upsertNote_spec` witness. -/
def noteState : NoteEditorState :=
  { notes := [{ id := "note_old", text := "ancien", photo_ids := [] }],
    activeNoteId := none, noteText := "  Vérifier le raccordement  ",
    notePhotos := ["p1"] }

/-- Witness for `upsertNote_spec`: a blank-variant state is rejected,
and `noteState` gains exactly one note with the trimmed text. -/
theorem upsertNote_spec_witness :
    ((upsertNote { noteState with noteText := "   " } 100 "note_f1").notes =
        noteState.notes ∧
      (upsertNote { noteState with noteText := "   " } 100 "note_f1").toast =
        some ⟨"error", "Écris au moins une recommandation SAV dans la note."⟩) ∧
    ((upsertNote noteState 100 "note_f1").notes =
        { id := "note_f1", text := jsTrim noteState.noteText, photo_ids := ["p1"],
          assets := [], created_at := some 100, updated_at := some 100 } :: noteState.notes ∧
      (upsertNote noteState 100 "note_f1").notes.length = noteState.notes.length + 1 ∧
      (∀ n ∈ noteState.notes, n.id ≠ "note_f1") ∧
      (upsertNote noteState 100 "note_f1").toast = some ⟨"success", "Note SAV créée."⟩) := by
  constructor
  · exact (upsertNote_spec { noteState with noteText := "   " } 100 "note_f1").1 (by decide)
  · exact (upsertNote_spec noteState 100 "note_f1").2 "p1" (by decide) (by decide)
      (by decide) (by decide) (by decide)

end SavDetail

namespace SavDetail

/-- JavaScript `a || b`. -/
def jorDefault (a b : JVal) : JVal := if truthy a then a else b

/-- An object literal `{ ...spread, k1: v1, ... }`: the spread's own
entries first, each explicit key then assigned in place. -/
def objLit (spread : JVal) (sets : List (String × JVal)) : JVal :=
  .obj (sets.foldl (fun fs kv => setField fs kv.1 kv.2) (entriesOf spread))

/-- The `pubPatch` object built from the server's publish response
`data` and the previous chantier (part_003, lines 1251-1262). -/
def chantierPubPatch (prev : JVal) (data : JVal) : JVal :=
  objLit (.obj .nil)
    [("publication",
      objLit (jorDefault (bvOf prev "publication") (.obj .nil))
        [("report_public_slug",
          jorDefault (bvOf data "public_slug")
            (bvOf (bvOf prev "publication") "report_public_slug")),
         ("report_public_url",
          jorDefault (bvOf data "public_url")
            (bvOf (bvOf prev "publication") "report_public_url")),
         ("last_published_at",
          jorDefault (bvOf data "last_published_at")
            (bvOf (bvOf prev "publication") "last_published_at")),
         ("last_published_by",
          jorDefault (bvOf data "last_published_by")
            (bvOf (bvOf prev "publication") "last_published_by"))]),
     ("status", jorDefault (bvOf data "status") (bvOf prev "status")),
     ("updated_at", jorDefault (bvOf data "updated_at") (bvOf prev "updated_at"))]

/-- What the chantier-first publish branch leaves behind. -/
structure ChantierPublishOutcome where
  chantier : JVal
  detail : Option SessionDetail
  toast : Option Toast
  publishing : Bool

/-- Embedding of the chantier-first branch of `handlePublish`
(part_003, lines 1229-1301), entered when `isChantierMode &&
chantierMeta.chantier_id` holds.  `pubRes` is the outcome of the `POST
/chantiers/{id}/publish` call (`.error` covers both a thrown fetch and
a non-2xx response, whose message the code assembles from the status
and body); `notifyRes` is the outcome of the best-effort webhook call,
which sits in its own try/catch and is only logged. -/
def handlePublishChantier (detail0 : Option SessionDetail) (prevChantier : JVal)
    (author : String) (pubRes : Except String JVal)
    (notifyRes : Except String Bool) : ChantierPublishOutcome :=
  match detail0 with
  | none => ⟨prevChantier, detail0, none, false⟩
  | some d =>
    match pubRes with
    | .error msg =>
      ⟨prevChantier, some d,
        some ⟨"error", if msg = "" then "Erreur lors de la publication chantier." else msg⟩,
        false⟩
    | .ok data =>
      let patch := chantierPubPatch prevChantier data
      let newChantier := if truthy prevChantier then deepMerge prevChantier patch else patch
      let newDetail := some { d with status := some "PUBLIÉ" }
      let _notified := match notifyRes with
        | .ok _ => ()
        | .error _ => ()
      ⟨newChantier, newDetail, some ⟨"success", "Rapport chantier publié."⟩, false⟩

/-- What the legacy session publish branch leaves behind. -/
structure SessionPublishOutcome where
  detail : Option SessionDetail
  toast : Option Toast
  publishing : Bool
deriving DecidableEq, Repr

/-- Embedding of the legacy session branch of `handlePublish`
(part_003, lines 1306-1375): blocked for multi-session chantiers,
no-op without a session id, an error toast without any included photo;
otherwise `POST /sessions/{id}/publish`, whose parsed response replaces
`detail`, followed by the best-effort webhook call in its own
try/catch, then the success toast. -/
def handlePublishSession (detail0 : Option SessionDetail) (isMultiSessionChantier : Bool)
    (effectiveSessionId : Option String) (includeMap : List (String × Bool))
    (author : String) (pubRes : Except String SessionDetail)
    (notifyRes : Except String Unit) : SessionPublishOutcome :=
  match detail0 with
  | none => ⟨detail0, none, false⟩
  | some d =>
    if isMultiSessionChantier then
      ⟨detail0,
        some ⟨"error", "Chantier multi-sessions : publication non supportée pour l’instant. (On affiche bien toutes les photos, mais le rapport reste lié à une session.)"⟩,
        false⟩
    else
      match effectiveSessionId with
      | none => ⟨detail0, none, false⟩
      | some _sid =>
        let included := (photosOf d).filter (fun p => List.lookup p.id includeMap ≠ some false)
        if included.length = 0 then
          ⟨detail0, some ⟨"error", "Aucune photo sélectionnée pour le rapport."⟩, false⟩
        else
          match pubRes with
          | .error msg =>
            ⟨detail0,
              some ⟨"error", if msg = "" then "Erreur lors de la publication." else msg⟩,
              false⟩
          | .ok updated =>
            let _notified := match notifyRes with
              | .ok _ => ()
              | .error _ => ()
            ⟨some updated, some ⟨"success", "Rapport publié."⟩, false⟩

/-- C6: once the publish request has succeeded, the outcome of the
best-effort notification webhook is irrelevant: neither branch rolls
back the published state or downgrades the success toast, in both the
chantier-first and the legacy session flow. -/
theorem handlePublish_webhook_isolation :
    (∀ (d0 : Option SessionDetail) (prev : JVal) (author : String) (data : JVal)
        (n1 n2 : Except String Bool),
      handlePublishChantier d0 prev author (.ok data) n1 =
        handlePublishChantier d0 prev author (.ok data) n2) ∧
    (∀ (d : SessionDetail) (prev : JVal) (author : String) (data : JVal)
        (n : Except String Bool),
      (handlePublishChantier (some d) prev author (.ok data) n).toast =
          some ⟨"success", "Rapport chantier publié."⟩ ∧
      (handlePublishChantier (some d) prev author (.ok data) n).chantier =
          (if truthy prev then deepMerge prev (chantierPubPatch prev data)
           else chantierPubPatch prev data) ∧
      (handlePublishChantier (some d) prev author (.ok data) n).detail =
          some { d with status := some "PUBLIÉ" }) ∧
    (∀ (d0 : Option SessionDetail) (isMulti : Bool) (sid : Option String)
        (includeMap : List (String × Bool)) (author : String) (updated : SessionDetail)
        (n1 n2 : Except String Unit),
      handlePublishSession d0 isMulti sid includeMap author (.ok updated) n1 =
        handlePublishSession d0 isMulti sid includeMap author (.ok updated) n2) ∧
    (∀ (d : SessionDetail) (sid : String) (includeMap : List (String × Bool))
        (author : String) (updated : SessionDetail) (n : Except String Unit),
      ((photosOf d).filter (fun p => List.lookup p.id includeMap ≠ some false)).length ≠ 0 →
      (handlePublishSession (some d) false (some sid) includeMap author
          (.ok updated) n).toast = some ⟨"success", "Rapport publié."⟩ ∧
      (handlePublishSession (some d) false (some sid) includeMap author
          (.ok updated) n).detail = some updated) := by
  refine ⟨?_, ?_, ?_, ?_⟩
  · intro d0 prev author data n1 n2
    cases d0 <;> rfl
  · intro d prev author data n
    exact ⟨rfl, rfl, rfl⟩
  · intro d0 isMulti sid includeMap author updated n1 n2
    cases d0 with
    | none => rfl
    | some d =>
      cases isMulti
      · cases sid <;> rfl
      · rfl
  · intro d sid includeMap author updated n hinc
    simp only [handlePublishSession]
    rw [if_neg (by simp)]
    rw [if_neg hinc]
    exact ⟨rfl, rfl⟩

/-- Witness for `handlePublish_webhook_isolation` at a concrete detail
with one included photo and a failing webhook. -/
theorem handlePublish_webhook_isolation_witness :
    (handlePublishSession (some specAggS1) false (some "s1") [] "Service Technique"
        (.ok specAggS2) (.error "webhook down")).toast =
      some ⟨"success", "Rapport publié."⟩ ∧
    (handlePublishSession (some specAggS1) false (some "s1") [] "Service Technique"
        (.ok specAggS2) (.error "webhook down")).detail = some specAggS2 := by
  exact handlePublish_webhook_isolation.2.2.2 specAggS1 "s1" [] "Service Technique"
    specAggS2 (.error "webhook down") (by decide)

end SavDetail

namespace Api

/-- An HTTP request a handler issues. -/
structure Req where
  method : String
  url : String
deriving DecidableEq, Repr

/-- `buildUrl` with the default `API_BASE` (`new URL(path, base)` with
an absolute path yields origin plus path). -/
def apiUrl (path : String) : String := "http://localhost:8001" ++ path

end Api

namespace SavDetail

/-- What `deleteNoteAsset` leaves behind. -/
structure NoteAssetDeleteOutcome where
  requests : List Api.Req
  notes : List SavNote
  selectedAssetId : Option String
  toast : Option Toast
deriving DecidableEq, Repr

/-- Embedding of `deleteNoteAsset` (part_003, lines 1138-1182).  Its
only UI entry point is the ✕ button of an asset chip (line 2005),
which calls it directly: the source never calls `window.confirm` on
this path, so the `windowConfirm` parameter — the answer the user
would give were a dialog shown — is never consulted.  `fetchOk` is
whether the `DELETE` call returns 2xx. -/
def deleteNoteAsset (effectiveSessionId : Option String) (notes : List SavNote)
    (selectedAssetId : Option String) (noteId assetId : String)
    (windowConfirm : Bool) (fetchOk : Bool) : NoteAssetDeleteOutcome :=
  match effectiveSessionId with
  | none => ⟨[], notes, selectedAssetId, none⟩
  | some sid =>
    let req : Api.Req := ⟨"DELETE",
      Api.apiUrl ("/sessions/" ++ Js.encodeURIComponent sid ++ "/notes/" ++
        Js.encodeURIComponent noteId ++ "/assets/" ++ Js.encodeURIComponent assetId)⟩
    if fetchOk then
      let notes' := notes.map (fun n =>
        if n.id ≠ noteId then n
        else { n with assets := n.assets.filter (fun a => a.asset_id ≠ assetId) })
      let selected' :=
        if selectedAssetId ≠ some assetId then selectedAssetId
        else
          ((((notes.find? (fun x => x.id == noteId)).map SavNote.assets).getD []).filter
              (fun a => a.asset_id ≠ assetId)).head?.map NoteAsset.asset_id
      ⟨[req], notes', selected', some ⟨"success", "Visuel supprimé."⟩⟩
    else
      ⟨[req], notes, selectedAssetId, some ⟨"error", "Erreur suppression visuel."⟩⟩

end SavDetail

namespace SavList

/-! Embedding of the SAV inbox/list page `src/unnamed/part_004`. -/

/-- The members of `ChantierAggItem` (part_004 lines 26-41) that
`handleDeleteRow` reads. -/
structure ChantierAggItem where
  group_key : String
  chantier_id : Option String := none
  session_ids : Option (List String) := none
deriving DecidableEq, Repr

/-- The state slices `handleDeleteRow` reads and writes. -/
structure DeleteRowState where
  deletingKey : Option String := none
  deleteError : Option String := none
deriving DecidableEq, Repr

/-- Requests issued and final state of one `handleDeleteRow` run. -/
structure DeleteRowOutcome where
  requests : List Api.Req
  state : DeleteRowState
deriving DecidableEq, Repr

/-- The `for (const sid of sids)` delete loop: issue `DELETE` requests
until one fails (`fetchOk` says whether the call for a session id
returns 2xx); the throw aborts the remaining iterations. -/
def deleteSessionsLoop (fetchOk : String → Bool) : List String → List Api.Req × Bool
  | [] => ([], true)
  | sid :: rest =>
    let req : Api.Req := ⟨"DELETE", Api.apiUrl ("/sessions/" ++ Js.encodeURIComponent sid)⟩
    if fetchOk sid then
      let r := deleteSessionsLoop fetchOk rest
      (req :: r.1, r.2)
    else ([req], false)

/-- Embedding of `handleDeleteRow` (part_004, lines 659-750).
`windowConfirm` is the answer `window.confirm` returns; the failure
message assembled from the response body is abstracted to its fixed
prefix. -/
def handleDeleteRow (st0 : DeleteRowState) (row : ChantierAggItem) (isUnattached : Bool)
    (windowConfirm : Bool) (fetchOk : String → Bool) : DeleteRowOutcome :=
  let st := { st0 with deleteError := none }
  if st.deletingKey ≠ none then ⟨[], st⟩
  else if isUnattached then
    let sids := row.session_ids.getD []
    if sids.length = 0 then
      ⟨[], { st with deleteError := some "Impossible de supprimer: aucune session détectée." }⟩
    else if ¬ windowConfirm then ⟨[], st⟩
    else
      let r := deleteSessionsLoop fetchOk sids
      if r.2 then ⟨r.1, { st with deletingKey := none }⟩
      else ⟨r.1, { st with deletingKey := none, deleteError := some "Suppression impossible." }⟩
  else
    let chantierId := Js.jsTrim (row.chantier_id.getD "")
    if chantierId = "" then
      ⟨[], { st with deleteError := some "Impossible de supprimer: chantier_id manquant." }⟩
    else if ¬ windowConfirm then ⟨[], st⟩
    else
      let req : Api.Req := ⟨"DELETE",
        Api.apiUrl ("/chantiers/" ++ Js.encodeURIComponent chantierId)⟩
      if fetchOk chantierId then ⟨[req], { st with deletingKey := none }⟩
      else ⟨[req], { st with deletingKey := none, deleteError := some "Suppression impossible." }⟩

end SavList

namespace SavList

/-- Notes used in the C7 counterexample. -/
def cexNotes : List SavDetail.SavNote :=
  [{ id := "n1", text := "note", photo_ids := [], assets := [{ asset_id := "a1" }] }]

/-- C7 counterexample: deleting a note's visual asset issues its HTTP
DELETE request even though the user was never asked for (and here
would deny) a confirmation — the note-asset delete path has no
confirmation dialog at all. -/
theorem deleteNoteAsset_no_confirm_counterexample :
    (SavDetail.deleteNoteAsset (some "sess1") cexNotes none "n1" "a1" false true).requests =
      [⟨"DELETE", "http://localhost:8001/sessions/sess1/notes/n1/assets/a1"⟩] ∧
    (SavDetail.deleteNoteAsset (some "sess1") cexNotes none "n1" "a1" false true).requests ≠
      [] := by
  constructor
  · decide
  · decide

/-- C7 (amended): session and chantier deletes go through
`window.confirm`: when the confirmation is declined no request is
issued and the deletion state is untouched (only a stale delete-error
message is cleared); the note visual asset delete, however, issues its
DELETE request without any prior confirmation. -/
theorem delete_confirmation_spec :
    (∀ (st : DeleteRowState) (row : ChantierAggItem) (isUnattached : Bool)
        (fetchOk : String → Bool),
      (handleDeleteRow st row isUnattached false fetchOk).requests = [] ∧
      (handleDeleteRow st row isUnattached false fetchOk).state.deletingKey =
        st.deletingKey) ∧
    (∀ (sid : String) (notes : List SavDetail.SavNote) (sel : Option String)
        (noteId assetId : String) (windowConfirm fetchOk : Bool),
      (SavDetail.deleteNoteAsset (some sid) notes sel noteId assetId
          windowConfirm fetchOk).requests =
        [⟨"DELETE", Api.apiUrl ("/sessions/" ++ Js.encodeURIComponent sid ++ "/notes/" ++
          Js.encodeURIComponent noteId ++ "/assets/" ++
          Js.encodeURIComponent assetId)⟩]) := by
  constructor
  · intro st row isUnattached fetchOk
    simp only [handleDeleteRow]
    repeat' split
    all_goals first
      | exact ⟨rfl, rfl⟩
      | simp_all
  · intro sid notes sel noteId assetId windowConfirm fetchOk
    cases fetchOk
    · rfl
    · rfl

/-- Witness for `delete_confirmation_spec`: a declined chantier delete
issues nothing; the asset delete issues its DELETE regardless. -/
theorem delete_confirmation_spec_witness :
    (handleDeleteRow {} { group_key := "g1", chantier_id := some "c1" } false false
        (fun _ => true)).requests = [] ∧
    (SavDetail.deleteNoteAsset (some "sess1") cexNotes none "n1" "a1" true true).requests =
      [⟨"DELETE", Api.apiUrl ("/sessions/" ++ Js.encodeURIComponent "sess1" ++ "/notes/" ++
        Js.encodeURIComponent "n1" ++ "/assets/" ++ Js.encodeURIComponent "a1")⟩] := by
  exact ⟨(delete_confirmation_spec.1 {} { group_key := "g1", chantier_id := some "c1" }
      false (fun _ => true)).1,
    delete_confirmation_spec.2 "sess1" cexNotes none "n1" "a1" true true⟩

end SavList

namespace PublicReport

/-! Embedding of the public report pages
`src/src/app/r/[slug]/page.tsx` and `src/unnamed/part_001`. -/

/-- Outcome of the single `GET` a public page performs: a parsed
payload, a non-2xx response with its best-effort body text, or a
thrown fetch. -/
inductive FetchOutcome (α : Type) where
  | success (data : α)
  | httpError (status : Nat) (body : String)
  | networkError (msg : String)
deriving DecidableEq, Repr

/-- The payload members of a public chantier report this model keeps
(the render decision only depends on the payload's presence). -/
structure PublicChantier where
  title : Option String := none
deriving DecidableEq, Repr

/-- The payload of a public session report. -/
structure PublicSession where
  chantier_ref : Option String := none
deriving DecidableEq, Repr

/-- What a public page shows once effects have settled. -/
inductive PageView where
  | loadingView
  | notFoundView (title : String) (message : Option String)
  | reportView
deriving DecidableEq, Repr

/-- `true` exactly on the explicit not-found state. -/
def isNotFound : PageView → Bool
  | .notFoundView _ _ => true
  | _ => false

/-- Render state of `PublicChantierReportPage` (r/[slug]/page.tsx,
lines 171-236) after its load effect settles: with an empty slug the
effect returns before fetching and `loading` stays true forever; a
failed or non-2xx fetch leaves `data` null and renders the
"Rapport introuvable" block with the thrown message. -/
def publicChantierRender (slug : String) (res : FetchOutcome PublicChantier) : PageView :=
  if slug = "" then .loadingView
  else
    match res with
    | .success _ => .reportView
    | .httpError status body =>
      .notFoundView "Rapport introuvable"
        (some (if body = "" then "Erreur " ++ Nat.repr status else body))
    | .networkError msg =>
      .notFoundView "Rapport introuvable"
        (some (if msg = "" then "Impossible de charger le rapport." else msg))

/-- The only request the chantier page issues. -/
def publicChantierRequests (slug : String) : List Api.Req :=
  if slug = "" then []
  else [⟨"GET", Api.apiUrl ("/chantiers/public/" ++ Js.encodeURIComponent slug)⟩]

/-- Render state of `PublicSessionPage` (part_001, lines 40-108):
empty slug keeps the loading screen; any fetch failure or non-2xx
status leaves `session` null and renders "Session introuvable". -/
def publicSessionRender (slug : String) (res : FetchOutcome PublicSession) : PageView :=
  if slug = "" then .loadingView
  else
    match res with
    | .success _ => .reportView
    | .httpError _ _ => .notFoundView "Session introuvable" none
    | .networkError _ => .notFoundView "Session introuvable" none

/-- The only request the session page issues (the slug is interpolated
raw, without `encodeURIComponent`, in part_001). -/
def publicSessionRequests (slug : String) : List Api.Req :=
  if slug = "" then []
  else [⟨"GET", Api.apiUrl ("/sessions/public/" ++ slug)⟩]

/-- C8 counterexample: with a missing slug, both public pages stay on
the loading screen — they do not render the explicit not-found state
the claim promises (and a fetch never happens). -/
theorem publicReport_missing_slug_counterexample :
    publicChantierRender "" (.httpError 404 "") = .loadingView ∧
    isNotFound (publicChantierRender "" (.httpError 404 "")) = false ∧
    publicSessionRender "" (.httpError 404 "") = .loadingView ∧
    isNotFound (publicSessionRender "" (.httpError 404 "")) = false ∧
    publicChantierRequests "" = [] ∧
    publicSessionRequests "" = [] := by
  decide

/-- C8 (amended): on the public report pages an unknown or unpublished
slug — the fetch fails or returns non-2xx — renders the explicit
not-found state rather than throwing or showing an error dialog, while
a missing slug leaves the page on its loading screen without fetching;
in every case the pages only ever issue GET requests, never a
mutation. -/
theorem publicReport_not_found_spec :
    (∀ (slug : String) (status : Nat) (body : String), slug ≠ "" →
      isNotFound (publicChantierRender slug (.httpError status body)) = true) ∧
    (∀ (slug msg : String), slug ≠ "" →
      isNotFound (publicChantierRender slug (.networkError msg)) = true) ∧
    (∀ (slug : String) (status : Nat) (body : String), slug ≠ "" →
      isNotFound (publicSessionRender slug (.httpError status body)) = true) ∧
    (∀ (slug msg : String), slug ≠ "" →
      isNotFound (publicSessionRender slug (.networkError msg)) = true) ∧
    (∀ res : FetchOutcome PublicChantier, publicChantierRender "" res = .loadingView) ∧
    (∀ res : FetchOutcome PublicSession, publicSessionRender "" res = .loadingView) ∧
    (∀ slug : String, ∀ r ∈ publicChantierRequests slug, r.method = "GET") ∧
    (∀ slug : String, ∀ r ∈ publicSessionRequests slug, r.method = "GET") := by
  refine ⟨?_, ?_, ?_, ?_, ?_, ?_, ?_, ?_⟩
  · intro slug status body h
    simp [publicChantierRender, h, isNotFound]
  · intro slug msg h
    simp [publicChantierRender, h, isNotFound]
  · intro slug status body h
    simp [publicSessionRender, h, isNotFound]
  · intro slug msg h
    simp [publicSessionRender, h, isNotFound]
  · intro res
    simp [publicChantierRender]
  · intro res
    simp [publicSessionRender]
  · intro slug r hr
    by_cases h : slug = ""
    · simp [publicChantierRequests, h] at hr
    · simp [publicChantierRequests, h] at hr
      rw [hr]
  · intro slug r hr
    by_cases h : slug = ""
    · simp [publicSessionRequests, h] at hr
    · simp [publicSessionRequests, h] at hr
      rw [hr]

/-- Witness for `publicReport_not_found_spec` at a concrete slug. -/
theorem publicReport_not_found_spec_witness :
    isNotFound (publicChantierRender "abc" (.httpError 404 "not published")) = true ∧
    isNotFound (publicSessionRender "abc" (.networkError "down")) = true := by
  exact ⟨publicReport_not_found_spec.1 "abc" 404 "not published" (by decide),
    publicReport_not_found_spec.2.2.2.1 "abc" "down" (by decide)⟩

end PublicReport

section Examples

open Js Generateur

example : jsParseFloat "  2.5e1" = some (.fin 250 1) := by decide

example : jsParseFloat "abc" = none := by decide

example : jsParseFloat "3abc" = some (.fin 3 0) := by decide

example : jsParseFloat "-Infinity" = some .negInf := by decide

example : JNum.geNat (.fin 25 1) 2 = true := by decide

example : JNum.geNat (.fin 25 1) 3 = false := by decide

example : parseGeRule ">= 3" = some 3 := by decide

example : parseGeRule ">=" = none := by decide

example : parseGeRule "==3" = none := by decide

example :
    shouldShowGroup { showIf := some ⟨"typ", ["PAC "]⟩ } [("typ", " pac")] = true := by
  decide

example :
    shouldShowField { key := "f", showIf := some ⟨"src", ">=2"⟩ }
      [("src", "tri")]
      [{ key := "src", mapTo := some [("tri", .fin 3 0)] }] = true := by
  decide

open SavDetail in
example : deepMerge JVal.null (.str "x") = JVal.null := by
  simp [deepMerge, jdepth, deepMergeFuel]

open SavDetail in
example : deepMerge (jobj []) (jobj [("a", .num 2 0)]) = jobj [("a", .num 2 0)] := by
  simp [deepMerge, jdepth, fdepth, deepMergeFuel, mergeEntriesF, jobj, JFields.ofList,
    entriesOf, setField, bvOf, jget, lookupField, isMergeableObj, truthy, isObjType, isArray]

open SavDetail in
example :
    deepMerge (jobj [("n", jobj [("x", .str "s")])]) (jobj [("n", jobj [("y", .null)])]) =
      jobj [("n", jobj [("x", .str "s"), ("y", .null)])] := by
  simp [deepMerge, jdepth, fdepth, deepMergeFuel, mergeEntriesF, jobj, JFields.ofList,
    entriesOf, setField, bvOf, jget, lookupField, isMergeableObj, truthy, isObjType, isArray]

end Examples
